import Mathlib

/-!
Shallow embedding of the ACMVITAP event-registration application
(`src/app.py`) in Lean 4, together with theorems settling the frozen
claims about its specification.

Modelling conventions:
* Form values are Lean `String`s; `request.form.get(key, "")` is modelled by
  total string-valued fields (absent key = `""`), except where key *presence*
  matters (`admin_edit_team`'s member loop), where `Option` is used.
* Python's `str.strip()` is modelled by `stripString` (a structurally
  recursive whitespace trim, so it evaluates in the kernel).
* MongoDB ObjectIds are modelled by `Nat`; a malformed id (for which
  `ObjectId(...)` raises) is modelled by `none : Option Nat`.
* `datetime` instants are modelled as microseconds since the epoch (`Nat`),
  matching Python datetime's microsecond resolution.
* Python `int(...)` parsing of a form field is modelled by `Option Int`
  (`none` = the field is absent or raises `ValueError`).
-/

/-- Python's `str.strip()`: remove leading and trailing whitespace.
Implemented by structural recursion over the character list so that it
evaluates inside the kernel. -/
def String.stripString (s : String) : String :=
  String.mk
    (((s.data.dropWhile Char.isWhitespace).reverse.dropWhile
      Char.isWhitespace).reverse)

namespace ACMVitap

/-- One member's three form fields for a position, as read from the form
(`member_i_name`, `member_i_email`, `member_i_reg_no`; absent key = `""`). -/
structure MemberFields where
  name : String
  email : String
  reg_no : String
deriving Repr, DecidableEq

/-- An event definition document, as stored in `events_collection`. -/
structure Event where
  id : Nat
  event_name : String
  require_team_name : Bool
  min_members : Nat
  max_members : Nat
  active : Bool
deriving Repr, DecidableEq

/-- A registration document, as built by `team_register` and stored in
`teams_collection`.  `team_name` is `none` exactly when the handler stores
Python `None`. -/
structure RegDoc where
  event_id : Nat
  event_name : String
  team_name : Option String
  team_lead_name : String
  team_lead_email : String
  team_lead_phone : String
  team_lead_reg_no : String
  members : List MemberFields
  created_at : Nat
deriving Repr, DecidableEq

/-- The submitted registration form.  `member i` models the three
`member_{i}_name/email/reg_no` fields at position `i` (absent = `""`). -/
structure RegForm where
  member : Nat → MemberFields
  team_lead_name : String
  team_lead_email : String
  team_lead_phone : String
  team_lead_reg_no : String
  team_name : String

/-- `stripMember` applies `.strip()` to each of a position's three fields,
as the member-gathering loop of `team_register` does on read. -/
def stripMember (m : MemberFields) : MemberFields :=
  { name := m.name.stripString, email := m.email.stripString, reg_no := m.reg_no.stripString }

/-- The error message `f"Member {i} name and email are required."`. -/
def memberErrorMsg (i : Nat) : String :=
  "Member " ++ toString i ++ " name and email are required."

/-- Python's `range(a, a + len)` as a list of positions. -/
def rangeFrom (a : Nat) : Nat → List Nat
  | 0 => []
  | n + 1 => a :: rangeFrom (a + 1) n

/-- The member-gathering loop of `team_register` (`for i in range(1,
max_members + 1)`), run over an explicit list of positions: the first
position `i ≤ min_members` whose stripped name or email is empty aborts the
loop with the rejection message; otherwise a position is appended when any
stripped field is non-empty or `i ≤ min_members`. -/
def gatherMembers (form : Nat → MemberFields) (minM : Nat) :
    List Nat → Except String (List MemberFields)
  | [] => Except.ok []
  | i :: rest =>
    let m := stripMember (form i)
    if i ≤ minM ∧ (m.name = "" ∨ m.email = "") then
      Except.error (memberErrorMsg i)
    else
      match gatherMembers form minM rest with
      | Except.error e => Except.error e
      | Except.ok tail =>
        if m.name ≠ "" ∨ m.email ≠ "" ∨ m.reg_no ≠ "" ∨ i ≤ minM then
          Except.ok (m :: tail)
        else
          Except.ok tail

/-- Outcome of the POST branch of `team_register`: a 400 rejection with an
error message, or the registration document to persist. -/
inductive SubmitOutcome where
  | reject (msg : String)
  | accept (doc : RegDoc)
deriving Repr, DecidableEq

/-- The POST branch of `team_register` after the event is resolved: gather
members over positions `1..max_members`, then require team-lead name and
email, then require a team name when the event demands one, and finally
assemble the document inserted into `teams_collection`. -/
def teamRegisterPost (event : Event) (form : RegForm) (now : Nat) :
    SubmitOutcome :=
  match gatherMembers form.member event.min_members
      (rangeFrom 1 event.max_members) with
  | Except.error msg => SubmitOutcome.reject msg
  | Except.ok members =>
    let lead_name := form.team_lead_name.stripString
    let lead_email := form.team_lead_email.stripString
    if lead_name = "" ∨ lead_email = "" then
      SubmitOutcome.reject "Team lead name and email are required."
    else
      let team_name_field : Option String :=
        if event.require_team_name then some form.team_name.stripString else none
      if event.require_team_name ∧ form.team_name.stripString = "" then
        SubmitOutcome.reject "Team name is required for this event."
      else
        SubmitOutcome.accept
          { event_id := event.id
            event_name := event.event_name
            team_name := team_name_field
            team_lead_name := lead_name
            team_lead_email := lead_email
            team_lead_phone := form.team_lead_phone.stripString
            team_lead_reg_no := form.team_lead_reg_no.stripString
            members := members
            created_at := now }

/-- HTTP method of a request to the registration route. -/
inductive Method where
  | get
  | post
deriving Repr, DecidableEq

/-- A response of the `team_register` handler. -/
inductive RegResponse where
  | invalidEvent
  | registrationForm (event : Event)
  | errorPage (msg : String)
  | confirmation (doc : RegDoc)
deriving Repr, DecidableEq

/-- HTTP status of a `team_register` response. -/
def statusOf : RegResponse → Nat
  | RegResponse.invalidEvent => 404
  | RegResponse.registrationForm _ => 200
  | RegResponse.errorPage _ => 400
  | RegResponse.confirmation _ => 200

/-- Response body marker: the 404 branch returns the literal string
`"Invalid event"`; the other branches render templates. -/
def bodyOf : RegResponse → String
  | RegResponse.invalidEvent => "Invalid event"
  | RegResponse.registrationForm _ => "team_register.html"
  | RegResponse.errorPage _ => "team_register.html"
  | RegResponse.confirmation _ => "download_info.html"

/-- `events_collection.find_one({"_id": ObjectId(event_id)})`: lookup purely
by identifier, with no condition on any other field. -/
def findEventById (events : List Event) (id : Nat) : Option Event :=
  events.find? (fun e => e.id == id)

/-- The `choose_event` page's query
`events_collection.find({"active": True})`: only active events are listed. -/
def chooseEventList (events : List Event) : List Event :=
  events.filter (fun e => e.active)

/-- Persisting a submission outcome: a rejection re-renders the form with a
400 and writes nothing; an accepted document is inserted and the
confirmation is rendered from the stored copy. -/
def persistOutcome (regs : List RegDoc) :
    SubmitOutcome → RegResponse × List RegDoc
  | SubmitOutcome.reject msg => (RegResponse.errorPage msg, regs)
  | SubmitOutcome.accept doc =>
    (RegResponse.confirmation doc, regs ++ [doc])

/-- The `team_register` handler for a supplied event identifier: `oid` is
the result of `ObjectId(event_id)` (`none` when it raises); an unresolved
event yields `("Invalid event", 404)`; GET renders the form; POST runs the
rule evaluator and persists on success.  Returns the response together with
the registration store after the request. -/
def teamRegisterHandler (events : List Event) (regs : List RegDoc)
    (oid : Option Nat) (method : Method) (form : RegForm) (now : Nat) :
    RegResponse × List RegDoc :=
  match oid with
  | none => (RegResponse.invalidEvent, regs)
  | some id =>
    match findEventById events id with
    | none => (RegResponse.invalidEvent, regs)
    | some event =>
      match method with
      | Method.get => (RegResponse.registrationForm event, regs)
      | Method.post => persistOutcome regs (teamRegisterPost event form now)

/-! ### Admin event create / edit (`admin_events`, `admin_edit_event`) -/

/-- `max(1, int(request.form.get('min_members', 1)))`, with `ValueError`
(or an absent field) falling back to `1`.  `none` models both an absent
field and an unparsable one. -/
def clampMinMembers (raw : Option Int) : Int :=
  match raw with
  | none => 1
  | some v => max 1 v

/-- `max(min_members, int(request.form.get('max_members', min_members)))`,
with `ValueError` (or an absent field) falling back to `min_members`. -/
def clampMaxMembers (minM : Int) (raw : Option Int) : Int :=
  match raw with
  | none => minM
  | some v => max minM v

/-- The fields of an event document written by the admin create/edit
handlers (identifier and timestamps omitted). -/
structure EventWrite where
  event_name : String
  require_team_name : Bool
  min_members : Int
  max_members : Int
  active : Bool
deriving Repr, DecidableEq

/-- The event document inserted by the POST branch of `admin_events`
(created events are always active). -/
def adminCreateEventDoc (name : String) (rtn : Bool)
    (minRaw maxRaw : Option Int) : EventWrite :=
  let minM := clampMinMembers minRaw
  let maxM := clampMaxMembers minM maxRaw
  { event_name := name, require_team_name := rtn,
    min_members := minM, max_members := maxM, active := true }

/-- The `$set` document written by the POST branch of `admin_edit_event`. -/
def adminEditEventDoc (name : String) (rtn : Bool)
    (minRaw maxRaw : Option Int) (active : Bool) : EventWrite :=
  let minM := clampMinMembers minRaw
  let maxM := clampMaxMembers minM maxRaw
  { event_name := name, require_team_name := rtn,
    min_members := minM, max_members := maxM, active := active }

/-! ### Admin session guard (`admin_required`, `logout`) -/

/-- The session's `'admin'` key: `none` when absent, `some v` when
`session['admin'] = v`. -/
abbrev AdminSession : Type := Option Bool

/-- The `admin_required` decorator: when `'admin'` is not in the session the
wrapped operation `f` is not run and the caller gets `loginRedirect` with
the state `st` untouched; otherwise `f` runs on `st`. -/
def admin_required {σ ρ : Type} (loginRedirect : ρ) (s : AdminSession)
    (f : σ → σ × ρ) (st : σ) : σ × ρ :=
  match s with
  | none => (st, loginRedirect)
  | some _ => f st

/-- The `logout` handler: `session.pop('admin', None)` then a redirect home,
modelled as the new session state paired with a response marker. -/
def logout (s : AdminSession) : AdminSession × String :=
  match s with
  | none => (none, "redirect:home")
  | some _ => (none, "redirect:home")

/-! ### Admin team edit (`admin_edit_team`) -/

/-- The member part of an `admin_edit_team` POST form: entry `k` (position
`k + 1`) is `none` when the key `member_{k+1}_name` is absent — the reading
loop breaks there — and `some` fields otherwise. -/
abbrev EditMembersForm : Type := List (Option MemberFields)

/-- The member-reading loop of `admin_edit_team`: walk positions `1, 2, …`
while the name key is present, keeping stripped records that have any
non-empty field. -/
def collectEditMembers : EditMembersForm → List MemberFields
  | [] => []
  | none :: _ => []
  | some m :: rest =>
    let s := stripMember m
    if s.name ≠ "" ∨ s.email ≠ "" ∨ s.reg_no ≠ "" then
      s :: collectEditMembers rest
    else
      collectEditMembers rest

/-- The non-member fields of an `admin_edit_team` POST form. -/
structure EditTeamForm where
  team_name : String
  team_lead_name : String
  team_lead_email : String
  team_lead_phone : String
  team_lead_reg_no : String
  members : EditMembersForm

/-- The `$set` update of `admin_edit_team` applied to a stored team: team
name and team-lead fields are always overwritten; `members` is included in
the update only when the collected list is non-empty. -/
def adminEditTeamApply (team : RegDoc) (form : EditTeamForm) : RegDoc :=
  let members := collectEditMembers form.members
  { team with
    team_name := some form.team_name.stripString
    team_lead_name := form.team_lead_name.stripString
    team_lead_email := form.team_lead_email.stripString
    team_lead_phone := form.team_lead_phone.stripString
    team_lead_reg_no := form.team_lead_reg_no.stripString
    members := if members.isEmpty then team.members else members }

/-! ### CSV export (`_export_teams`, `format='csv'`) -/

/-- `row.get(k, "")` on a serialized document modelled as an association
list of string keys and string values. -/
def rowGet (row : List (String × String)) (k : String) : String :=
  (row.lookup k).getD ""

/-- The CSV branch of `_export_teams` at the row level: an empty collection
produces an empty file; otherwise the header row is the key list of the
first serialized record and each document contributes one row of
`row.get(k, "")` values in header order. -/
def exportTeamsCSV (docs : List (List (String × String))) :
    List (List String) :=
  match docs with
  | [] => []
  | first :: _ =>
    let keys := first.map Prod.fst
    keys :: docs.map (fun row => keys.map (fun k => rowGet row k))

/-- Parsing the CSV back: the header row gives the keys and every later row
is zipped against it into key/value pairs. -/
def parseCSVRows (rows : List (List String)) :
    List (List (String × String)) :=
  match rows with
  | [] => []
  | header :: body => body.map (fun r => header.zip r)

/-- Two collections of serialized records carry the same set of key/value
string pairs. -/
def samePairSet (a b : List (List (String × String))) : Prop :=
  (∀ p ∈ a.flatten, p ∈ b.flatten) ∧ (∀ p ∈ b.flatten, p ∈ a.flatten)

/-! ### Stats (`_compute_stats`) -/

/-- Microseconds in a day. -/
def microsPerDay : Nat := 86400000000

/-- Midnight (UTC) of the day containing `now`, in microseconds. -/
def todayStartMicros (now : Nat) : Nat :=
  now / microsPerDay * microsPerDay

/-- The offset of `datetime(y, m, d, 23, 59, 59, 999999)` past midnight:
23 h 59 min 59 s 999999 µs. -/
def lastMicroOfDay : Nat := 86399999999

/-- The filter of `_compute_stats`'s second query:
`created_at ≥ datetime(y, m, d)` and
`created_at < datetime(y, m, d, 23, 59, 59, 999999)` (strict `$lt`). -/
def createdTodayCode (now ts : Nat) : Bool :=
  decide (todayStartMicros now ≤ ts) &&
    decide (ts < todayStartMicros now + lastMicroOfDay)

/-- `_compute_stats`: total registration count and the count matched by the
current-day range query. -/
def compute_stats (store : List RegDoc) (now : Nat) : Nat × Nat :=
  (store.length,
   (store.filter (fun r => createdTodayCode now r.created_at)).length)

/-- The calendar-day membership the claim describes: any instant from
midnight inclusive to the next midnight exclusive. -/
def createdTodaySpec (now ts : Nat) : Bool :=
  decide (todayStartMicros now ≤ ts) &&
    decide (ts < todayStartMicros now + microsPerDay)

/-! ### Helper lemmas -/

theorem rangeFrom_length (len : Nat) : ∀ a, (rangeFrom a len).length = len := by
  induction len with
  | zero => intro a; rfl
  | succ k ih => intro a; simp [rangeFrom, ih (a + 1)]

theorem rangeFrom_append (m : Nat) : ∀ (a n : Nat),
    rangeFrom a (m + n) = rangeFrom a m ++ rangeFrom (a + m) n := by
  induction m with
  | zero => intro a n; simp [rangeFrom]
  | succ k ih =>
    intro a n
    have h1 : k + 1 + n = (k + n) + 1 := by omega
    have h2 : a + (k + 1) = (a + 1) + k := by omega
    rw [h1, h2]
    show a :: rangeFrom (a + 1) (k + n)
        = (a :: rangeFrom (a + 1) k) ++ rangeFrom ((a + 1) + k) n
    rw [ih (a + 1) n, List.cons_append]

/-- When every position in the range is required (`≤ min_members`) and its
stripped name and email are non-empty, the loop keeps every position. -/
theorem gather_required (form : Nat → MemberFields) (minM : Nat) (len : Nat) :
    ∀ a, a + len ≤ minM + 1 →
    (∀ i, a ≤ i → i < a + len →
      (form i).name.stripString ≠ "" ∧ (form i).email.stripString ≠ "") →
    gatherMembers form minM (rangeFrom a len)
      = Except.ok ((rangeFrom a len).map (fun i => stripMember (form i))) := by
  induction len with
  | zero => intro a _ _; rfl
  | succ k ih =>
    intro a hle h
    obtain ⟨hn, he⟩ := h a (le_refl a) (by omega)
    show gatherMembers form minM (a :: rangeFrom (a + 1) k) = _
    rw [gatherMembers]
    rw [if_neg (by simp [stripMember]; intro _; exact ⟨hn, he⟩)]
    rw [ih (a + 1) (by omega) (fun i h1 h2 => h i (by omega) (by omega))]
    simp [rangeFrom, stripMember, hn]

/-- Positions strictly beyond `min_members` whose stripped fields are all
empty are all dropped by the loop. -/
theorem gather_beyond (form : Nat → MemberFields) (minM : Nat) (len : Nat) :
    ∀ a, minM < a →
    (∀ i, a ≤ i → i < a + len →
      (form i).name.stripString = "" ∧ (form i).email.stripString = ""
        ∧ (form i).reg_no.stripString = "") →
    gatherMembers form minM (rangeFrom a len) = Except.ok [] := by
  induction len with
  | zero => intro a _ _; rfl
  | succ k ih =>
    intro a ha h
    obtain ⟨h1, h2, h3⟩ := h a (le_refl a) (by omega)
    show gatherMembers form minM (a :: rangeFrom (a + 1) k) = _
    rw [gatherMembers]
    rw [if_neg (fun hc => absurd hc.1 (by omega))]
    rw [ih (a + 1) (by omega) (fun i hi1 hi2 => h i (by omega) (by omega))]
    have hna : ¬ a ≤ minM := by omega
    simp [stripMember, h1, h2, h3, hna]

/-- Splitting the loop over an appended position list when the first part
succeeds. -/
theorem gather_append (form : Nat → MemberFields) (minM : Nat)
    (l1 l2 : List Nat) (r1 : List MemberFields)
    (h1 : gatherMembers form minM l1 = Except.ok r1) :
    gatherMembers form minM (l1 ++ l2)
      = match gatherMembers form minM l2 with
        | Except.error e => Except.error e
        | Except.ok r2 => Except.ok (r1 ++ r2) := by
  induction l1 generalizing r1 with
  | nil =>
    simp only [gatherMembers] at h1
    cases h1
    simp only [List.nil_append]
    cases gatherMembers form minM l2 <;> simp
  | cons i rest ih =>
    rw [gatherMembers] at h1
    by_cases hc : i ≤ minM
        ∧ ((stripMember (form i)).name = "" ∨ (stripMember (form i)).email = "")
    · rw [if_pos hc] at h1; cases h1
    · rw [if_neg hc] at h1
      cases hrest : gatherMembers form minM rest with
      | error e => rw [hrest] at h1; cases h1
      | ok tail =>
        rw [hrest] at h1
        have h2 : (if (stripMember (form i)).name ≠ ""
              ∨ (stripMember (form i)).email ≠ ""
              ∨ (stripMember (form i)).reg_no ≠ "" ∨ i ≤ minM then
            Except.ok (stripMember (form i) :: tail)
          else Except.ok tail) = Except.ok r1 := h1
        simp only [List.cons_append]
        rw [gatherMembers, if_neg hc, ih tail hrest]
        by_cases hinc : (stripMember (form i)).name ≠ ""
            ∨ (stripMember (form i)).email ≠ ""
            ∨ (stripMember (form i)).reg_no ≠ "" ∨ i ≤ minM
        · rw [if_pos hinc] at h2
          cases h2
          cases gatherMembers form minM l2 <;> simp [hinc]
        · rw [if_neg hinc] at h2
          cases h2
          cases gatherMembers form minM l2 <;> simp [hinc]

/-- The loop aborts with the message naming the first position `i0 ≤
min_members` whose stripped name or email is empty, for any position list
that is a contiguous range reaching `i0` with no earlier violation. -/
theorem gather_error (form : Nat → MemberFields) (minM i0 : Nat)
    (hle : i0 ≤ minM)
    (hviol : (form i0).name.stripString = "" ∨ (form i0).email.stripString = "")
    (len : Nat) : ∀ a, a ≤ i0 → i0 < a + len →
    (∀ j, a ≤ j → j < i0 →
      (form j).name.stripString ≠ "" ∧ (form j).email.stripString ≠ "") →
    gatherMembers form minM (rangeFrom a len)
      = Except.error (memberErrorMsg i0) := by
  induction len with
  | zero => intro a ha1 ha2 _; omega
  | succ k ih =>
    intro a ha1 ha2 hfirst
    show gatherMembers form minM (a :: rangeFrom (a + 1) k) = _
    rw [gatherMembers]
    by_cases hai : a = i0
    · subst hai
      rw [if_pos ⟨hle, by simpa [stripMember] using hviol⟩]
    · have halt : a < i0 := by omega
      obtain ⟨hn, he⟩ := hfirst a (le_refl a) halt
      rw [if_neg (by simp [stripMember]; intro _; exact ⟨hn, he⟩)]
      rw [ih (a + 1) (by omega) (by omega)
        (fun j hj1 hj2 => hfirst j (by omega) hj2)]

/-- Under the C1 field hypotheses the gathering loop keeps exactly the
positions `1..min_members`, in order. -/
theorem gather_exact (form : Nat → MemberFields) (minM maxM : Nat)
    (hmn : minM ≤ maxM)
    (hreq : ∀ i, 1 ≤ i → i ≤ minM →
      (form i).name.stripString ≠ "" ∧ (form i).email.stripString ≠ "")
    (hempty : ∀ i, minM < i → i ≤ maxM →
      (form i).name.stripString = "" ∧ (form i).email.stripString = ""
        ∧ (form i).reg_no.stripString = "") :
    gatherMembers form minM (rangeFrom 1 maxM)
      = Except.ok ((rangeFrom 1 minM).map (fun i => stripMember (form i))) := by
  have hsplit : maxM = minM + (maxM - minM) := by omega
  rw [hsplit, rangeFrom_append]
  rw [gather_append form minM _ _ _
    (gather_required form minM minM 1 (by omega)
      (fun i h1 h2 => hreq i h1 (by omega)))]
  rw [gather_beyond form minM (maxM - minM) (1 + minM) (by omega)
    (fun i h1 h2 => hempty i (by omega) (by omega))]
  simp

/-- C1: for an event with `min_members = m ≤ max_members = n`, when the
submission has non-empty (stripped) name and email at every position
`1..m` and only empty fields at positions `m+1..n`, any registration
document the submit handler persists has a members sequence that is
exactly the stripped records of positions `1..m` in position order — in
particular of length exactly `m` — and the handler appends exactly that
document to the registration store. -/
theorem C1_members_exactly_min (e : Event) (form : RegForm) (now : Nat)
    (doc : RegDoc) (regs : List RegDoc)
    (hmn : e.min_members ≤ e.max_members)
    (hreq : ∀ i, 1 ≤ i → i ≤ e.min_members →
      (form.member i).name.stripString ≠ "" ∧ (form.member i).email.stripString ≠ "")
    (hempty : ∀ i, e.min_members < i → i ≤ e.max_members →
      (form.member i).name.stripString = "" ∧ (form.member i).email.stripString = ""
        ∧ (form.member i).reg_no.stripString = "")
    (hacc : teamRegisterPost e form now = SubmitOutcome.accept doc) :
    doc.members
      = (rangeFrom 1 e.min_members).map (fun i => stripMember (form.member i))
    ∧ doc.members.length = e.min_members
    ∧ persistOutcome regs (teamRegisterPost e form now)
        = (RegResponse.confirmation doc, regs ++ [doc]) := by
  have hg := gather_exact form.member e.min_members e.max_members hmn hreq hempty
  have hs := hacc
  rw [teamRegisterPost, hg] at hs
  have hacc2 : (if form.team_lead_name.stripString = "" ∨ form.team_lead_email.stripString = ""
      then SubmitOutcome.reject "Team lead name and email are required."
      else if e.require_team_name = true ∧ form.team_name.stripString = ""
        then SubmitOutcome.reject "Team name is required for this event."
        else SubmitOutcome.accept
          { event_id := e.id, event_name := e.event_name,
            team_name := if e.require_team_name = true
              then some form.team_name.stripString else none,
            team_lead_name := form.team_lead_name.stripString,
            team_lead_email := form.team_lead_email.stripString,
            team_lead_phone := form.team_lead_phone.stripString,
            team_lead_reg_no := form.team_lead_reg_no.stripString,
            members := (rangeFrom 1 e.min_members).map
              (fun i => stripMember (form.member i)),
            created_at := now }) = SubmitOutcome.accept doc := hs
  have hmem : doc.members
      = (rangeFrom 1 e.min_members).map (fun i => stripMember (form.member i)) := by
    by_cases hlead : form.team_lead_name.stripString = "" ∨ form.team_lead_email.stripString = ""
    · rw [if_pos hlead] at hacc2; cases hacc2
    · rw [if_neg hlead] at hacc2
      by_cases htn : e.require_team_name = true ∧ form.team_name.stripString = ""
      · rw [if_pos htn] at hacc2; cases hacc2
      · rw [if_neg htn] at hacc2
        cases hacc2
        rfl
  refine ⟨hmem, ?_, ?_⟩
  · rw [hmem, List.length_map, rangeFrom_length]
  · rw [hacc]; rfl

/-- Concrete event for the C1 witness: `min_members = 1`, `max_members = 2`. -/
def eventC1 : Event :=
  { id := 7, event_name := "Hackathon", require_team_name := false,
    min_members := 1, max_members := 2, active := true }

/-- Concrete submission for the C1 witness: member 1 filled in, member 2
entirely empty. -/
def formC1 : RegForm :=
  { member := fun i =>
      if i = 1 then { name := "Alice", email := "alice@x.com", reg_no := "" }
      else { name := "", email := "", reg_no := "" }
    team_lead_name := "Lead", team_lead_email := "lead@x.com",
    team_lead_phone := "", team_lead_reg_no := "", team_name := "" }

/-- The document `team_register` persists for `eventC1` and `formC1`. -/
def docC1 : RegDoc :=
  { event_id := 7, event_name := "Hackathon", team_name := none,
    team_lead_name := "Lead", team_lead_email := "lead@x.com",
    team_lead_phone := "", team_lead_reg_no := "",
    members := [{ name := "Alice", email := "alice@x.com", reg_no := "" }],
    created_at := 0 }

/-- Witness for C1 at a concrete event and submission. -/
theorem C1_members_exactly_min_witness :
    teamRegisterPost eventC1 formC1 0 = SubmitOutcome.accept docC1
    ∧ docC1.members.length = eventC1.min_members
    ∧ persistOutcome [] (teamRegisterPost eventC1 formC1 0)
        = (RegResponse.confirmation docC1, [docC1]) := by
  have hacc : teamRegisterPost eventC1 formC1 0 = SubmitOutcome.accept docC1 := by
    decide
  have h := C1_members_exactly_min eventC1 formC1 0 docC1 [] (by decide)
    (fun i h1 h2 => by
      have hi : i = 1 := by
        simpa [eventC1] using (by omega : 1 ≤ i ∧ i ≤ 1 → i = 1) ⟨h1, h2⟩
      subst hi
      exact ⟨by decide, by decide⟩)
    (fun i h1 h2 => by
      have hi : i = 2 := by
        have h1' : 1 < i := h1
        have h2' : i ≤ 2 := h2
        omega
      subst hi
      exact ⟨by decide, by decide⟩)
    hacc
  exact ⟨hacc, h.2.1, h.2.2⟩

/-- C2: if the first position `i0 ≤ min_members` with an empty (stripped)
name or email exists, the submit handler rejects with exactly
`"Member i0 name and email are required."`, a 400 status, and writes no
registration document; the outcome is the same for any submission `form2`
that agrees with `form` up to position `i0`, so later positions are never
examined. -/
theorem C2_first_missing_member (e : Event) (form form2 : RegForm)
    (now : Nat) (i0 : Nat) (regs : List RegDoc)
    (hmn : e.min_members ≤ e.max_members)
    (h1 : 1 ≤ i0) (h2 : i0 ≤ e.min_members)
    (hviol : (form.member i0).name.stripString = ""
      ∨ (form.member i0).email.stripString = "")
    (hfirst : ∀ j, 1 ≤ j → j < i0 →
      (form.member j).name.stripString ≠ ""
        ∧ (form.member j).email.stripString ≠ "")
    (hagree : ∀ j, j ≤ i0 → form2.member j = form.member j) :
    teamRegisterPost e form2 now = SubmitOutcome.reject (memberErrorMsg i0)
    ∧ persistOutcome regs (teamRegisterPost e form2 now)
        = (RegResponse.errorPage (memberErrorMsg i0), regs)
    ∧ statusOf (RegResponse.errorPage (memberErrorMsg i0)) = 400 := by
  have hviol2 : (form2.member i0).name.stripString = ""
      ∨ (form2.member i0).email.stripString = "" := by
    rw [hagree i0 (le_refl i0)]; exact hviol
  have hfirst2 : ∀ j, 1 ≤ j → j < i0 →
      (form2.member j).name.stripString ≠ ""
        ∧ (form2.member j).email.stripString ≠ "" := by
    intro j hj1 hj2
    rw [hagree j (by omega)]
    exact hfirst j hj1 hj2
  have hg := gather_error form2.member e.min_members i0 h2 hviol2
    e.max_members 1 h1 (by omega) (fun j hj1 hj2 => hfirst2 j hj1 hj2)
  have hpost : teamRegisterPost e form2 now
      = SubmitOutcome.reject (memberErrorMsg i0) := by
    rw [teamRegisterPost, hg]
  exact ⟨hpost, by rw [hpost]; rfl, rfl⟩

/-- Concrete event for the C2 witness: `min_members = 2`, `max_members = 3`. -/
def eventC2 : Event :=
  { id := 3, event_name := "CTF", require_team_name := false,
    min_members := 2, max_members := 3, active := true }

/-- Concrete submission for the C2 witness: member 1 complete, member 2 has
a name but no email. -/
def formC2 : RegForm :=
  { member := fun i =>
      if i = 1 then { name := "Ana", email := "ana@x.com", reg_no := "" }
      else if i = 2 then { name := "Bo", email := "", reg_no := "" }
      else { name := "", email := "", reg_no := "" }
    team_lead_name := "Lead", team_lead_email := "lead@x.com",
    team_lead_phone := "", team_lead_reg_no := "", team_name := "" }

/-- Witness for C2 at a concrete event and submission: the rejection names
member 2 and nothing is persisted. -/
theorem C2_first_missing_member_witness :
    teamRegisterPost eventC2 formC2 0
      = SubmitOutcome.reject "Member 2 name and email are required."
    ∧ persistOutcome [] (teamRegisterPost eventC2 formC2 0)
        = (RegResponse.errorPage "Member 2 name and email are required.", [])
    ∧ statusOf (RegResponse.errorPage "Member 2 name and email are required.")
        = 400 := by
  have h := C2_first_missing_member eventC2 formC2 formC2 0 2 []
    (by decide) (by decide) (by decide)
    (Or.inr (by decide))
    (fun j hj1 hj2 => by
      have hj : j = 1 := by omega
      subst hj
      exact ⟨by decide, by decide⟩)
    (fun j _ => rfl)
  have hmsg : memberErrorMsg 2 = "Member 2 name and email are required." := by
    decide
  rw [hmsg] at h
  exact h

/-- C3: for an event that does not require a team name, any registration
document the submit handler persists carries `team_name = none` (Python
`None`), whatever was submitted in the `team_name` field. -/
theorem C3_team_name_absent (e : Event) (form : RegForm) (now : Nat)
    (doc : RegDoc)
    (hreq : e.require_team_name = false)
    (hacc : teamRegisterPost e form now = SubmitOutcome.accept doc) :
    doc.team_name = none := by
  rw [teamRegisterPost] at hacc
  cases hg : gatherMembers form.member e.min_members
      (rangeFrom 1 e.max_members) with
  | error msg => rw [hg] at hacc; cases hacc
  | ok members =>
    rw [hg] at hacc
    have hacc2 : (if form.team_lead_name.stripString = ""
          ∨ form.team_lead_email.stripString = ""
        then SubmitOutcome.reject "Team lead name and email are required."
        else if e.require_team_name = true ∧ form.team_name.stripString = ""
          then SubmitOutcome.reject "Team name is required for this event."
          else SubmitOutcome.accept
            { event_id := e.id, event_name := e.event_name,
              team_name := if e.require_team_name = true
                then some form.team_name.stripString else none,
              team_lead_name := form.team_lead_name.stripString,
              team_lead_email := form.team_lead_email.stripString,
              team_lead_phone := form.team_lead_phone.stripString,
              team_lead_reg_no := form.team_lead_reg_no.stripString,
              members := members,
              created_at := now }) = SubmitOutcome.accept doc := hacc
    by_cases hlead : form.team_lead_name.stripString = ""
        ∨ form.team_lead_email.stripString = ""
    · rw [if_pos hlead] at hacc2; cases hacc2
    · rw [if_neg hlead] at hacc2
      rw [hreq] at hacc2
      simp only [false_and, if_false, Bool.false_eq_true, if_neg] at hacc2
      cases hacc2
      rfl

/-- Concrete event for the C3 witness: team name not required. -/
def eventC3 : Event :=
  { id := 9, event_name := "Workshop", require_team_name := false,
    min_members := 1, max_members := 1, active := true }

/-- Concrete submission for the C3 witness: a team name is submitted even
though the event does not require one. -/
def formC3 : RegForm :=
  { member := fun _ => { name := "Cleo", email := "c@x.com", reg_no := "" }
    team_lead_name := "Lead", team_lead_email := "lead@x.com",
    team_lead_phone := "", team_lead_reg_no := "", team_name := "Bytes" }

/-- The document `team_register` persists for `eventC3` and `formC3`. -/
def docC3 : RegDoc :=
  { event_id := 9, event_name := "Workshop", team_name := none,
    team_lead_name := "Lead", team_lead_email := "lead@x.com",
    team_lead_phone := "", team_lead_reg_no := "",
    members := [{ name := "Cleo", email := "c@x.com", reg_no := "" }],
    created_at := 0 }

/-- Witness for C3: the stored document of a concrete submission with a
filled-in `team_name` field still has `team_name = none`. -/
theorem C3_team_name_absent_witness :
    teamRegisterPost eventC3 formC3 0 = SubmitOutcome.accept docC3
    ∧ docC3.team_name = none := by
  have hacc : teamRegisterPost eventC3 formC3 0 = SubmitOutcome.accept docC3 := by
    decide
  exact ⟨hacc, C3_team_name_absent eventC3 formC3 0 docC3 (by decide) hacc⟩

/-- C4: every event document stored by the admin create or edit handler
satisfies `max_members ≥ min_members ≥ 1`; unparsable input falls back to
`1` for `min_members` and to `min_members` for `max_members`; and
submitting `min_members = 5, max_members = 2` stores `max_members = 5`
instead of rejecting the request. -/
theorem C4_member_bounds_clamped (name : String) (rtn : Bool)
    (minRaw maxRaw : Option Int) (active : Bool) :
    (1 ≤ (adminCreateEventDoc name rtn minRaw maxRaw).min_members
      ∧ (adminCreateEventDoc name rtn minRaw maxRaw).min_members
          ≤ (adminCreateEventDoc name rtn minRaw maxRaw).max_members)
    ∧ (1 ≤ (adminEditEventDoc name rtn minRaw maxRaw active).min_members
      ∧ (adminEditEventDoc name rtn minRaw maxRaw active).min_members
          ≤ (adminEditEventDoc name rtn minRaw maxRaw active).max_members)
    ∧ (adminCreateEventDoc name rtn none maxRaw).min_members = 1
    ∧ (adminCreateEventDoc name rtn minRaw none).max_members
        = (adminCreateEventDoc name rtn minRaw none).min_members
    ∧ (adminCreateEventDoc name rtn (some 5) (some 2)).max_members = 5
    ∧ (adminEditEventDoc name rtn (some 5) (some 2) active).max_members = 5 := by
  have hbounds : 1 ≤ clampMinMembers minRaw
      ∧ clampMinMembers minRaw
          ≤ clampMaxMembers (clampMinMembers minRaw) maxRaw := by
    constructor
    · cases minRaw with
      | none => exact le_refl 1
      | some v => exact le_max_left 1 v
    · cases maxRaw with
      | none => exact le_refl _
      | some v => exact le_max_left _ v
  refine ⟨⟨hbounds.1, hbounds.2⟩, ⟨hbounds.1, hbounds.2⟩, rfl, ?_, ?_, ?_⟩
  · cases minRaw <;> rfl
  · show max (max 1 5) 2 = (5 : Int); decide
  · show max (max 1 5) 2 = (5 : Int); decide

/-- C5: the registration handler looks the event up by identifier only, so
an inactive event reachable by direct link is found and its POST is
processed by exactly the same rule evaluation as any other event —
`teamRegisterPost` does not depend on `active` — while the public chooser
excludes it. -/
theorem C5_inactive_event_still_registers (pre post : List Event)
    (e : Event) (regs : List RegDoc) (form : RegForm) (now : Nat)
    (hinactive : e.active = false)
    (hpre : ∀ p ∈ pre, p.id ≠ e.id) :
    findEventById (pre ++ e :: post) e.id = some e
    ∧ teamRegisterHandler (pre ++ e :: post) regs (some e.id)
        Method.post form now
        = persistOutcome regs (teamRegisterPost e form now)
    ∧ teamRegisterPost e form now
        = teamRegisterPost { e with active := true } form now
    ∧ e ∉ chooseEventList (pre ++ e :: post) := by
  have hfind : findEventById (pre ++ e :: post) e.id = some e := by
    induction pre with
    | nil =>
      simp [findEventById]
    | cons p ps ih =>
      have hne : (p.id == e.id) = false := by
        simpa using hpre p (List.mem_cons_self p ps)
      have ih2 := ih (fun q hq => hpre q (List.mem_cons_of_mem p hq))
      simpa [findEventById, List.find?, hne] using ih2
  refine ⟨hfind, ?_, ?_, ?_⟩
  · rw [teamRegisterHandler, hfind]
  · cases e; rfl
  · intro hmem
    rw [chooseEventList, List.mem_filter] at hmem
    rw [hinactive] at hmem
    exact Bool.noConfusion hmem.2

/-- Concrete inactive event for the C5 witness. -/
def eventC5 : Event :=
  { id := 11, event_name := "Closed", require_team_name := false,
    min_members := 1, max_members := 1, active := false }

/-- Concrete valid submission for the C5 witness. -/
def formC5 : RegForm :=
  { member := fun _ => { name := "Dana", email := "d@x.com", reg_no := "" }
    team_lead_name := "Lead", team_lead_email := "lead@x.com",
    team_lead_phone := "", team_lead_reg_no := "", team_name := "" }

/-- Witness for C5: the inactive event is resolved, its submission is
persisted, and the chooser hides it. -/
theorem C5_inactive_event_still_registers_witness :
    findEventById [eventC5] eventC5.id = some eventC5
    ∧ teamRegisterHandler [eventC5] [] (some eventC5.id) Method.post formC5 0
        = persistOutcome [] (teamRegisterPost eventC5 formC5 0)
    ∧ teamRegisterPost eventC5 formC5 0
        = teamRegisterPost { eventC5 with active := true } formC5 0
    ∧ eventC5 ∉ chooseEventList [eventC5] := by
  have h := C5_inactive_event_still_registers [] [] eventC5 [] formC5 0
    (by decide) (fun p hp => absurd hp (List.not_mem_nil p))
  simpa using h

/-- Reading a record back through its own key list recovers its values,
provided its keys are distinct (as the keys of a Python dict are). -/
theorem rowGet_keys (d : List (String × String))
    (hnd : (d.map Prod.fst).Nodup) :
    (d.map Prod.fst).map (fun k => rowGet d k) = d.map Prod.snd := by
  induction d with
  | nil => rfl
  | cons p t ih =>
    obtain ⟨k, v⟩ := p
    simp only [List.map_cons, List.nodup_cons] at hnd
    simp only [List.map_cons]
    congr 1
    · simp [rowGet, List.lookup]
    · have hcong : ∀ x ∈ t.map Prod.fst,
          rowGet ((k, v) :: t) x = rowGet t x := by
        intro x hx
        have hxk : (x == k) = false := by
          simp only [beq_eq_false_iff_ne]
          intro h
          exact hnd.1 (h ▸ hx)
        simp [rowGet, List.lookup, hxk]
      rw [List.map_congr_left hcong]
      exact ih hnd.2

/-- Zipping a record's keys with its values recovers the record. -/
theorem zip_fst_snd (d : List (String × String)) :
    (d.map Prod.fst).zip (d.map Prod.snd) = d := by
  have h := List.zip_unzip d
  rw [List.unzip_eq_map] at h
  exact h

/-- C6 (amended): when every serialized document has the same key list as
the first one and keys within a record are distinct — as holds for records
serialized from documents of one shape — parsing the exported CSV yields
the source records exactly, hence the same set of key/value pairs; an
empty collection exports to an empty file. -/
theorem C6_csv_roundtrip_same_keys (docs : List (List (String × String)))
    (hkeys : ∀ d1 ∈ docs, ∀ d2 ∈ docs, d1.map Prod.fst = d2.map Prod.fst)
    (hnodup : ∀ d ∈ docs, (d.map Prod.fst).Nodup) :
    parseCSVRows (exportTeamsCSV docs) = docs
    ∧ samePairSet (parseCSVRows (exportTeamsCSV docs)) docs
    ∧ exportTeamsCSV [] = [] := by
  have hmain : parseCSVRows (exportTeamsCSV docs) = docs := by
    cases docs with
    | nil => rfl
    | cons first rest =>
      rw [exportTeamsCSV, parseCSVRows]
      rw [List.map_map]
      refine List.map_congr_left ?_ |>.trans (List.map_id _)
      intro d hd
      have hk : d.map Prod.fst = first.map Prod.fst :=
        hkeys d hd first (List.mem_cons_self first rest)
      show (first.map Prod.fst).zip
          ((first.map Prod.fst).map (fun k => rowGet d k)) = d
      rw [← hk, rowGet_keys d (hnodup d hd), zip_fst_snd]
  exact ⟨hmain, by rw [hmain]; exact ⟨fun p hp => hp, fun p hp => hp⟩, rfl⟩

/-- Concrete collection for the C6 witness: two records with the same key
list. -/
def docsC6 : List (List (String × String)) :=
  [[("team_name", "A"), ("team_lead_email", "a@x.com")],
   [("team_name", "B"), ("team_lead_email", "b@x.com")]]

/-- Witness for C6 (amended) at a concrete collection of records. -/
theorem C6_csv_roundtrip_same_keys_witness :
    parseCSVRows (exportTeamsCSV docsC6) = docsC6
    ∧ samePairSet (parseCSVRows (exportTeamsCSV docsC6)) docsC6
    ∧ exportTeamsCSV [] = [] :=
  C6_csv_roundtrip_same_keys docsC6 (by decide) (by decide)

/-- Concrete collection refuting C6 as stated: the second record has a key
the first record lacks. -/
def docsC6bad : List (List (String × String)) :=
  [[("team_name", "A")],
   [("team_name", "B"), ("team_lead_email", "b@x.com")]]

/-- Counterexample to C6 as stated: for this collection the parsed CSV
does not carry the same set of key/value pairs as the source documents —
the pair `("team_lead_email", "b@x.com")` is lost because the header is
derived from the first record only. -/
theorem C6_csv_roundtrip_counterexample :
    ¬ samePairSet (parseCSVRows (exportTeamsCSV docsC6bad)) docsC6bad := by
  intro h
  have hb := h.2 ("team_lead_email", "b@x.com") (by decide)
  revert hb
  decide

/-- A registration document created at instant `ts`, for the C7 analysis. -/
def regCreatedAt (ts : Nat) : RegDoc :=
  { event_id := 0, event_name := "E", team_name := none,
    team_lead_name := "L", team_lead_email := "l@x.com",
    team_lead_phone := "", team_lead_reg_no := "", members := [],
    created_at := ts }

/-- C7: the range query of `_compute_stats` uses the strict upper bound
`datetime(y, m, d, 23, 59, 59, 999999)`, so a registration created at the
last microsecond of the current UTC day — an instant of that day, strictly
before the next midnight — is counted in the total but not in today's
count, contradicting the claim that every instant of the day is counted. -/
theorem C7_today_count_misses_last_microsecond :
    createdTodaySpec 0 86399999999 = true
    ∧ createdTodayCode 0 86399999999 = false
    ∧ compute_stats [regCreatedAt 86399999999] 0 = (1, 0) := by
  refine ⟨by decide, by decide, ?_⟩
  rfl

/-- C8: a GET request to the registration route whose event identifier is
malformed (`ObjectId` raises) or resolves to no stored event gets the body
`"Invalid event"` with status 404, and the registration store is
untouched. -/
theorem C8_invalid_event_404 (events : List Event) (regs : List RegDoc)
    (oid : Option Nat) (form : RegForm) (now : Nat)
    (hnores : oid.bind (findEventById events) = none) :
    teamRegisterHandler events regs oid Method.get form now
      = (RegResponse.invalidEvent, regs)
    ∧ statusOf RegResponse.invalidEvent = 404
    ∧ bodyOf RegResponse.invalidEvent = "Invalid event" := by
  refine ⟨?_, rfl, rfl⟩
  cases oid with
  | none => rfl
  | some id =>
    have hfind : findEventById events id = none := by
      simpa using hnores
    rw [teamRegisterHandler, hfind]

/-- Placeholder form for the C8 witness (a GET request carries no form
data a handler would read). -/
def formC8 : RegForm :=
  { member := fun _ => { name := "", email := "", reg_no := "" }
    team_lead_name := "", team_lead_email := "",
    team_lead_phone := "", team_lead_reg_no := "", team_name := "" }

/-- Witness for C8: an identifier that resolves to no event in a one-event
store yields the 404 "Invalid event" response and leaves the store alone. -/
theorem C8_invalid_event_404_witness :
    teamRegisterHandler [eventC1] [] (some 99) Method.get formC8 0
      = (RegResponse.invalidEvent, [])
    ∧ statusOf RegResponse.invalidEvent = 404
    ∧ bodyOf RegResponse.invalidEvent = "Invalid event" :=
  C8_invalid_event_404 [eventC1] [] (some 99) formC8 0 (by decide)

/-- C9: with no `'admin'` flag in the session every `admin_required`
operation redirects to the login page with the guarded operation not run
(the state is returned unchanged, whatever the operation was); `logout`
removes the flag from any session. -/
theorem C9_admin_guard_and_logout {σ ρ : Type} (loginRedirect : ρ)
    (f : σ → σ × ρ) (st : σ) (s : AdminSession)
    (habsent : s = none) :
    admin_required loginRedirect s f st = (st, loginRedirect)
    ∧ ∀ s2 : AdminSession, (logout s2).1 = none := by
  subst habsent
  refine ⟨rfl, ?_⟩
  intro s2
  cases s2 <;> rfl

/-- Witness for C9 at a concrete operation: the guard returns the redirect
and the untouched state, and logout clears a set flag. -/
theorem C9_admin_guard_and_logout_witness :
    admin_required "redirect:admin_login" (none : AdminSession)
        (fun n : Nat => (n + 1, "ran")) 0 = (0, "redirect:admin_login")
    ∧ (logout (some true)).1 = none :=
  ⟨(C9_admin_guard_and_logout "redirect:admin_login"
      (fun n : Nat => (n + 1, "ran")) 0 none rfl).1,
   (C9_admin_guard_and_logout "redirect:admin_login"
      (fun n : Nat => (n + 1, "ran")) 0 none rfl).2 (some true)⟩

/-- When every present member entry of the edit form strips to all-empty
fields, the collection loop of `admin_edit_team` keeps nothing. -/
theorem collectEditMembers_empty (l : EditMembersForm)
    (h : ∀ m : MemberFields, some m ∈ l →
      m.name.stripString = "" ∧ m.email.stripString = ""
        ∧ m.reg_no.stripString = "") :
    collectEditMembers l = [] := by
  induction l with
  | nil => rfl
  | cons mo rest ih =>
    cases mo with
    | none => rfl
    | some m =>
      obtain ⟨h1, h2, h3⟩ := h m (List.mem_cons_self (some m) rest)
      rw [collectEditMembers]
      rw [if_neg (by simp [stripMember, h1, h2, h3])]
      exact ih (fun m2 hm2 => h m2 (List.mem_cons_of_mem (some m) hm2))

/-- C10: when no submitted member position of an admin team-edit form has a
non-empty (stripped) name, email or registration number — including a form
with no member fields at all — the update leaves the stored members
sequence unchanged while overwriting the team name and the four team-lead
fields; the members list cannot be cleared this way. -/
theorem C10_admin_edit_keeps_members (team : RegDoc) (form : EditTeamForm)
    (hempty : ∀ m : MemberFields, some m ∈ form.members →
      m.name.stripString = "" ∧ m.email.stripString = ""
        ∧ m.reg_no.stripString = "") :
    (adminEditTeamApply team form).members = team.members
    ∧ (adminEditTeamApply team form).team_name
        = some form.team_name.stripString
    ∧ (adminEditTeamApply team form).team_lead_name
        = form.team_lead_name.stripString
    ∧ (adminEditTeamApply team form).team_lead_email
        = form.team_lead_email.stripString
    ∧ (adminEditTeamApply team form).team_lead_phone
        = form.team_lead_phone.stripString
    ∧ (adminEditTeamApply team form).team_lead_reg_no
        = form.team_lead_reg_no.stripString := by
  have hc : collectEditMembers form.members = [] :=
    collectEditMembers_empty form.members hempty
  rw [adminEditTeamApply]
  rw [hc]
  exact ⟨rfl, rfl, rfl, rfl, rfl, rfl⟩

/-- Concrete stored team for the C10 witness. -/
def teamC10 : RegDoc :=
  { event_id := 4, event_name := "Old", team_name := some "Former",
    team_lead_name := "Eli", team_lead_email := "e@x.com",
    team_lead_phone := "123", team_lead_reg_no := "R1",
    members := [{ name := "Mia", email := "m@x.com", reg_no := "R2" }],
    created_at := 5 }

/-- Concrete edit form for the C10 witness: one present but entirely empty
member position, then a gap. -/
def formC10 : EditTeamForm :=
  { team_name := "NewName", team_lead_name := "Eli2",
    team_lead_email := "e2@x.com", team_lead_phone := "456",
    team_lead_reg_no := "R9",
    members := [some { name := "", email := "", reg_no := "" }] }

/-- Witness for C10: the edit overwrites the listed fields but the stored
member survives. -/
theorem C10_admin_edit_keeps_members_witness :
    (adminEditTeamApply teamC10 formC10).members
        = [{ name := "Mia", email := "m@x.com", reg_no := "R2" }]
    ∧ (adminEditTeamApply teamC10 formC10).team_lead_name = "Eli2" := by
  have h := C10_admin_edit_keeps_members teamC10 formC10
    (fun m hm => by
      have hmem : m = { name := "", email := "", reg_no := "" } := by
        simpa [formC10] using hm
      subst hmem
      exact ⟨by decide, by decide, by decide⟩)
  exact ⟨h.1, h.2.2.1⟩

end ACMVitap
